import Mathlib

/-!
Verification of the ZisK distributed-console gateway/supervisor subsystem
(`gateway-server.cjs`): request validators, the fixed-window rate limiter,
the gRPC call wrapper's settle-once state machine, error sanitization,
the launch-endpoint admission pipeline, binary discovery, and the
worker-start capacity handling.

The JavaScript source is shallowly embedded: JS values that the handlers
inspect for truthiness are modelled by `JVal` (numbers restricted to
integers; every concrete input the theorems use is integer-valued, where
the JS semantics coincides), strings are Lean `String`s over their
character lists, `fs.existsSync` and `path.resolve` are explicit
environment parameters, and the event-driven parts (timers, gRPC stream
events) become explicit event lists folded over a step function.
-/

namespace Gateway

/-! ## String helpers (JS `includes`, `startsWith`, `substring`) -/

/-- JS `haystack.includes(needle)`: substring containment on character lists. -/
def strHas (s sub : String) : Bool :=
  s.data.tails.any (fun t => sub.data.isPrefixOf t)

/-- JS `s.startsWith(pre)`. -/
def strStarts (s pre : String) : Bool :=
  pre.data.isPrefixOf s.data

/-- JS `s.substring(0, n)` (ASCII: code units = characters). -/
def strTake (s : String) (n : Nat) : String :=
  ⟨s.data.take n⟩

/-- Character class of the job-id regex `[a-zA-Z0-9_-]`. -/
def wordChar (c : Char) : Bool :=
  c.isAlphanum || c = '_' || c = '-'

/-- Character class of the path regex `[a-zA-Z0-9/._-]`. -/
def pathChar (c : Char) : Bool :=
  c.isAlphanum || c = '/' || c = '.' || c = '_' || c = '-'

/-- JS regex test `/^[a-zA-Z0-9_-]+$/.test(s)`. -/
def wordCharsTest (s : String) : Bool :=
  !s.data.isEmpty && s.data.all wordChar

/-- JS regex test `/^[a-zA-Z0-9/._-]+$/.test(s)`. -/
def pathCharsTest (s : String) : Bool :=
  !s.data.isEmpty && s.data.all pathChar

/-- JS regex test `/^\/[a-zA-Z0-9/._-]+$/.test(s)` (used by the
absolute-path re-check inside `validatePath`). -/
def absPathTest (s : String) : Bool :=
  match s.data with
  | '/' :: rest => !rest.isEmpty && rest.all pathChar
  | _ => false

/-- Decimal digit run value, for the JS `parseInt` model. `none` when the
run is empty (`NaN`). -/
def digitsVal (l : List Char) : Option Nat :=
  let ds := l.takeWhile Char.isDigit
  if ds.isEmpty then none
  else some (ds.foldl (fun a c => a * 10 + (c.toNat - 48)) 0)

/-- JS `parseInt(s, 10)`: skip spaces, optional sign, leading digit run;
`none` models `NaN`. -/
def parseIntStr (s : String) : Option Int :=
  let l := s.data.dropWhile (fun c => c = ' ')
  match l with
  | '-' :: rest => (digitsVal rest).map (fun n => -(n : Int))
  | '+' :: rest => (digitsVal rest).map (fun n => (n : Int))
  | _ => (digitsVal l).map (fun n => (n : Int))

/-- A fragment "resembling a host:port pair": an alphanumeric character
immediately followed by a colon and a digit (e.g. `m:5432` inside
`db.example.com:5432`). -/
def hasHostPort : List Char → Bool
  | a :: b :: c :: rest =>
      (a.isAlphanum && b = ':' && c.isDigit) || hasHostPort (b :: c :: rest)
  | _ => false

/-- `hasHostPort` on a string. -/
def strHostPort (s : String) : Bool := hasHostPort s.data

/-! ## JS value domain

The handlers inspect `req.body` fields with JS truthiness and `typeof`
checks before handing them to the validators, so the embedding keeps a
small JS value type. Numbers are restricted to integers (a documented
restriction of the embedding; all concrete inputs used below are
integer-valued, where JS number semantics agrees). -/

inductive JVal where
  | vNull : JVal
  | vStr (s : String) : JVal
  | vNum (n : Int) : JVal
  | vBool (b : Bool) : JVal
deriving DecidableEq, Repr

/-- JS truthiness (`undefined`/`null` are modelled by `vNull`). -/
def truthy : JVal → Bool
  | .vNull => false
  | .vStr s => s ≠ ""
  | .vNum n => n ≠ 0
  | .vBool b => b

/-- JS `typeof v === 'string'`. -/
def isStr : JVal → Bool
  | .vStr _ => true
  | _ => false

/-- Extract the string of a `vStr` (used only after a `typeof` check). -/
def jstr : JVal → String
  | .vStr s => s
  | _ => ""

/-- JS `Number(v)` restricted to the integer fragment; `none` models
`NaN`. `Number(null) = 0`, `Number(true) = 1`, `Number(false) = 0`. -/
def toNumber : JVal → Option Int
  | .vNull => some 0
  | .vBool b => some (if b then 1 else 0)
  | .vNum n => some n
  | .vStr s =>
      let l := s.data.dropWhile (fun c => c = ' ')
      if l.isEmpty then some 0
      else match l with
        | '-' :: rest =>
            if rest ≠ [] && rest.all Char.isDigit
            then (digitsVal rest).map (fun n => -(n : Int)) else none
        | _ =>
            if l.all Char.isDigit then (digitsVal l).map (fun n => (n : Int))
            else none

/-- JS `parseInt(v, 10)` on a JS value (numbers are already integral in
this embedding). -/
def parseIntJVal : JVal → Option Int
  | .vNum n => some n
  | .vStr s => parseIntStr s
  | _ => none

/-! ## Validators (`gateway-server.cjs` lines 124-189) -/

/-- The `{ valid, error }` result object of the validators. -/
structure VResult where
  valid : Bool
  error : Option String
deriving DecidableEq, Repr

def vOk : VResult := ⟨true, none⟩

def vFail (msg : String) : VResult := ⟨false, some msg⟩

/-- `validateJobId` (lines 124-142), field-for-field from the source. -/
def validateJobId (jobId : JVal) : VResult :=
  if !truthy jobId || !isStr jobId then
    vFail "Job ID is required and must be a string"
  else
    let s := jstr jobId
    if s.length = 0 || s.length > 128 then
      vFail "Job ID must be between 1 and 128 characters"
    else if !wordCharsTest s then
      vFail "Job ID contains invalid characters. Only alphanumeric, underscore, and hyphen are allowed"
    else if s = "undefined" || s = "null" || s = "true" || s = "false" then
      vFail "Invalid job ID format"
    else vOk

/-- Path kind argument of `validatePath`. -/
inductive PathKind where
  | input : PathKind
  | elf : PathKind
deriving DecidableEq, Repr

/-- `validatePath` (lines 144-178). `resolve` stands for `path.resolve`
and `allowed` for the optional `ALLOWED_INPUT_PATHS` list; both are
explicit parameters of the embedding. -/
def validatePath (resolve : String → String) (allowed : Option (List String))
    (pathValue : JVal) (pathType : PathKind) : VResult :=
  if !truthy pathValue || !isStr pathValue then
    vFail "Path is required and must be a string"
  else
    let p := jstr pathValue
    if p.length = 0 || p.length > 512 then
      vFail "Path must be between 1 and 512 characters"
    else if strHas p ".." || strHas p "//" then
      vFail "Path contains invalid characters (.. or //). Path traversal is not allowed"
    else if !pathCharsTest p then
      vFail "Path contains invalid characters. Only alphanumeric, slashes, dots, underscores, and hyphens are allowed"
    else if strStarts p "/" && !absPathTest p then
      vFail "Absolute path must start with a valid directory name"
    else
      match allowed, pathType with
      | some roots, .input =>
          if roots.any (fun root => strStarts (resolve p) (resolve root)) then vOk
          else vFail "Input path must be within allowed directories"
      | _, _ => vOk

/-- `validateComputeCapacity` (lines 180-189); `maxCapacity` is the
`MAX_CAPACITY` environment constant (default 1000). -/
def validateComputeCapacity (maxCapacity : Int) (capacity : JVal) : VResult :=
  match toNumber capacity with
  | none => vFail "Compute capacity must be a number greater than 0"
  | some num =>
      if num < 1 then
        vFail "Compute capacity must be a number greater than 0"
      else if num > maxCapacity then
        vFail "Compute capacity exceeds maximum allowed. Please reduce the capacity requirement."
      else vOk

/-! ## Rate limiter (`gateway-server.cjs` lines 191-218)

The map entry for one fixed client key; `none` models "key absent from
`rateLimitMap`". -/

structure RLRecord where
  count : Nat
  resetTime : Int
deriving DecidableEq, Repr

/-- Outcome of one `rateLimit` middleware pass: `next()` was called, or a
429 response reporting the configured limit and window was sent. -/
inductive AdmitResult where
  | allowed : AdmitResult
  | rejected (maxRequests : Nat) (windowMs : Int) : AdmitResult
deriving DecidableEq, Repr

/-- One `rateLimit(req, res, next)` pass for a fixed key (lines 193-218):
create-on-first-request, roll the window when `now > resetTime`, reject
when `count >= RATE_LIMIT_MAX_REQUESTS`, otherwise increment. -/
def rlAdmit (maxRequests : Nat) (windowMs : Int) (now : Int) :
    Option RLRecord → AdmitResult × Option RLRecord
  | none => (.allowed, some ⟨1, now + windowMs⟩)
  | some record =>
      if now > record.resetTime then
        (.allowed, some ⟨1, now + windowMs⟩)
      else if record.count ≥ maxRequests then
        (.rejected maxRequests windowMs, some record)
      else
        (.allowed, some ⟨record.count + 1, record.resetTime⟩)

/-- Fold `rlAdmit` over a list of request arrival times. -/
def rlRun (maxRequests : Nat) (windowMs : Int) (st : Option RLRecord) :
    List Int → List AdmitResult × Option RLRecord
  | [] => ([], st)
  | t :: ts =>
      let (r, st2) := rlAdmit maxRequests windowMs t st
      let (rs, st3) := rlRun maxRequests windowMs st2 ts
      (r :: rs, st3)

/-! ## Error sanitization (`gateway-server.cjs` lines 75-122) -/

/-- gRPC status numbers used by `sanitizeError` and the launch handler. -/
def stOK : Nat := 0
def stCANCELLED : Nat := 1
def stINVALID_ARGUMENT : Nat := 3
def stDEADLINE_EXCEEDED : Nat := 4
def stNOT_FOUND : Nat := 5
def stPERMISSION_DENIED : Nat := 7
def stUNAVAILABLE : Nat := 14

/-- A JS error value as `sanitizeError` inspects it: an optional gRPC
status code and the effective message string (`error.message ||
String(error)` collapsed into one field of the embedding). -/
structure GErr where
  code : Option Nat
  message : String
deriving DecidableEq, Repr

/-- Fuelled global replace of `pat` followed by one-or-more digits with
`server`, the model of `message.replace(/localhost:\d+/g, 'server')`
(greedy digit run). Fuel is the character count; each step consumes at
least one character, so full fuel computes the true replacement. -/
def replGo (pat : List Char) : Nat → List Char → List Char
  | 0, l => l
  | _ + 1, [] => []
  | fuel + 1, c :: cs =>
      let l := c :: cs
      let rest := l.drop pat.length
      let ds := rest.takeWhile Char.isDigit
      if pat.isPrefixOf l && !ds.isEmpty then
        "server".data ++ replGo pat fuel (rest.drop ds.length)
      else
        c :: replGo pat fuel cs

/-- `message.replace(/localhost:\d+/g, 'server').replace(/127\.0\.0\.1:\d+/g, 'server')`. -/
def replaceHosts (s : String) : String :=
  let first := replGo "localhost:".data s.data.length s.data
  ⟨replGo "127.0.0.1:".data first.length first⟩

/-- `sanitizeError(error)` (lines 75-122). The first component is the
returned message; the second is whether the raw error was written to
local logging, which the source does exactly when `DEBUG` is set. -/
def sanitizeError (debug : Bool) (error : Option GErr) : String × Bool :=
  let logged := debug
  match error with
  | none => ("Internal server error", logged)
  | some e =>
      if e.code = some stNOT_FOUND then ("Resource not found", logged)
      else if e.code = some stUNAVAILABLE then
        ("Service unavailable - coordinator may be down", logged)
      else if e.code = some stDEADLINE_EXCEEDED then
        ("Request timeout - service is overloaded", logged)
      else if e.code = some stINVALID_ARGUMENT then
        ("Invalid request parameters", logged)
      else if e.code = some stPERMISSION_DENIED then
        ("Permission denied", logged)
      else
        let message := e.message
        if message ≠ "" && strHas message "timeout" then
          ("Request timeout - service is not responding", logged)
        else if strHas message "PROTO_PATH" || strHas message "proto" then
          ("Configuration error", logged)
        else if strHas message "localhost" || strHas message "127.0.0.1" ||
            strHas message ":" then
          (replaceHosts message, logged)
        else if message.length > 200 then
          (strTake message 200 ++ "...", logged)
        else ("Internal server error", logged)

/-- The fixed messages `sanitizeError` can return besides the replaced
and truncated forms. -/
def sanitizeFixed : List String :=
  [ "Internal server error"
  , "Resource not found"
  , "Service unavailable - coordinator may be down"
  , "Request timeout - service is overloaded"
  , "Invalid request parameters"
  , "Permission denied"
  , "Request timeout - service is not responding"
  , "Configuration error" ]

/-! ## gRPC call wrapper settle-once state machine
(`gateway-server.cjs` lines 318-399)

`grpcCall` guards settlement with the `completed` flag; the deadline
timer, the unary callback, the stream `error` event and the `status`
event all race. The embedding tracks the flag, whether the deadline
timer is still armed (`timeoutId` not yet cleared or fired), and the
list of `resolve`/`reject` invocations actually made on the promise. -/

/-- One promise settlement made by `grpcCall`. -/
inductive COutcome where
  | success : COutcome
  | failure : COutcome
  | timeoutErr : COutcome
deriving DecidableEq, Repr

structure CallSt where
  completed : Bool
  timerArmed : Bool
  settleCalls : List COutcome
deriving DecidableEq, Repr

/-- Events the underlying transport can fire after the call is issued. -/
inductive CEvent where
  | callback (failed : Bool) : CEvent
  | streamError : CEvent
  | statusEvt (code : Nat) : CEvent
  | timerFire : CEvent
deriving DecidableEq, Repr

/-- `finish(error, response)` (lines 344-354): no-op when `completed` is
already set, otherwise set it, run `cleanup(false)` (clear the timer)
and settle the promise once. -/
def finishCall (s : CallSt) (o : COutcome) : CallSt :=
  if s.completed then s
  else { completed := true, timerArmed := false, settleCalls := s.settleCalls ++ [o] }

/-- One transport event, as handled at lines 356-393. A `timerFire` on a
cleared timer never happens in JS (`clearTimeout`); it is a no-op here. -/
def stepCall (s : CallSt) : CEvent → CallSt
  | .callback failed =>
      if s.completed then s
      else finishCall s (if failed then .failure else .success)
  | .streamError =>
      if s.completed then s else finishCall s .failure
  | .statusEvt code =>
      if code ≠ stOK && !s.completed && code ≠ stCANCELLED then
        finishCall s .failure
      else s
  | .timerFire =>
      if !s.timerArmed then s
      else
        let s2 : CallSt := { s with timerArmed := false }
        if !s.completed then finishCall s2 .timeoutErr else s2

/-- State right after the synchronous body of `grpcCall` when the client
exists and the method exists: timer armed, nothing settled. -/
def callInit : CallSt := ⟨false, true, []⟩

/-- Fold the event trace from `callInit`. -/
def runCall (events : List CEvent) : CallSt :=
  events.foldl stepCall callInit

/-- Events that force a settlement when the call is still pending:
the unary callback, a stream error, a non-`OK` non-`CANCELLED` status,
or the deadline timer. -/
def forcing : CEvent → Bool
  | .callback _ => true
  | .streamError => true
  | .statusEvt code => code ≠ stOK && code ≠ stCANCELLED
  | .timerFire => true

/-! ## Launch endpoint pipeline (`gateway-server.cjs` lines 646-884)

The coordinator as the handler observes it over the three RPCs the
launch flow issues. `Except.error` models a thrown/rejected `grpcCall`. -/

structure Coord where
  systemStatus : Except Unit (Nat × Nat)
  jobsList : Except Unit (List String)
  launchProof : Except GErr String

/-- Names of the RPCs the launch handler can issue, in issue order. -/
inductive RpcName where
  | systemStatus : RpcName
  | jobsList : RpcName
  | launchProof : RpcName
deriving DecidableEq, Repr

/-- The pre-launch admission guard (lines 733-782): `SystemStatus` first;
zero total workers and zero idle workers each end the request with a 503
before `JobsList` is queried; only then is the active-jobs list fetched
and a duplicate `block_id` rejected with 409. A throw from either query
lands in the `catch (checkError)` arm, which only debug-logs, so the
guard yields no rejection. Returns the RPCs issued and the rejection
(HTTP status and audit reason), if any. -/
def guardRun (c : Coord) (blockId : String) : List RpcName × Option (Nat × String) :=
  match c.systemStatus with
  | .error _ => ([.systemStatus], none)
  | .ok (totalWorkers, idleWorkers) =>
      if totalWorkers = 0 then
        ([.systemStatus], some (503, "no_workers_available"))
      else if idleWorkers = 0 then
        ([.systemStatus], some (503, "all_workers_busy"))
      else
        match c.jobsList with
        | .error _ => ([.systemStatus, .jobsList], none)
        | .ok jobs =>
            if jobs.contains blockId then
              ([.systemStatus, .jobsList], some (409, "duplicate_block_id"))
            else ([.systemStatus, .jobsList], none)

/-- The body fields of a launch request. -/
structure LaunchReq where
  block_id : JVal
  compute_capacity : JVal
  input_path : JVal
  elf_path : JVal

/-- Gateway configuration the launch handler reads: `MAX_CAPACITY`,
`ALLOWED_INPUT_PATHS`, `path.resolve`, and the `DEBUG` flag. -/
structure GwConfig where
  maxCapacity : Int
  allowed : Option (List String)
  resolve : String → String
  debug : Bool

/-- The validation prefix of the launch handler (lines 671-731), in
source order; returns the audit `reason` of the first failing check. -/
def handlerValidation (cfg : GwConfig) (r : LaunchReq) : Option String :=
  if !(truthy r.block_id && truthy r.compute_capacity && truthy r.input_path) then
    some "missing_fields"
  else if !(validateJobId r.block_id).valid then
    some "invalid_block_id"
  else if !(validateComputeCapacity cfg.maxCapacity r.compute_capacity).valid then
    some "invalid_capacity"
  else if !(validatePath cfg.resolve cfg.allowed r.input_path .input).valid then
    some "invalid_input_path"
  else if truthy r.elf_path && !(validatePath cfg.resolve cfg.allowed r.elf_path .elf).valid then
    some "invalid_elf_path"
  else none

/-- The `catch` arm of the launch handler (lines 845-882): remap the
sanitized error to a status code and client message. -/
def launchCatch (debug : Bool) (e : GErr) : Nat × String :=
  let sanitized := (sanitizeError debug (some e)).1
  if strHas sanitized "timed out" || strHas sanitized "timeout" ||
      e.code = some stDEADLINE_EXCEEDED then
    (504, "Launch proof request timed out after 90 seconds. The coordinator may be slow, workers may not be available, or the coordinator is not responding. Check: 1) Coordinator is running, 2) Workers are registered and idle, 3) Compute capacity requested is available.")
  else if strHas sanitized "CANCELLED" || e.code = some stCANCELLED then
    (503, "The coordinator cancelled the request. This usually means no workers are connected or available.")
  else if strHas sanitized "No workers available" || strHas sanitized "insufficient" then
    (503, "No workers available or insufficient compute capacity. Register workers first using the Worker Management panel.")
  else if strHas sanitized "not found" || strHas sanitized "file" then
    (400, "File not found or invalid path")
  else (500, sanitized)

/-- Result of the handler body: whether the validation prefix passed,
the RPCs issued, the HTTP status, and the audit reason tag. -/
structure HandlerOut where
  validationOk : Bool
  rpcs : List RpcName
  status : Nat
  reason : String
deriving DecidableEq, Repr

/-- The launch handler after the rate-limit middleware admitted the
request (lines 667-884): validation prefix, admission guard, then the
`LaunchProof` RPC, whose empty-`job_id` and thrown-error outcomes follow
lines 822-828 and 845-882. -/
def launchHandler (cfg : GwConfig) (c : Coord) (r : LaunchReq) : HandlerOut :=
  match handlerValidation cfg r with
  | some reason => ⟨false, [], 400, reason⟩
  | none =>
      match guardRun c (jstr r.block_id) with
      | (rpcs, some (code, reason)) => ⟨true, rpcs, code, reason⟩
      | (rpcs, none) =>
          match c.launchProof with
          | .ok jobId =>
              if jobId = "" then ⟨true, rpcs ++ [.launchProof], 500, "empty_job_id"⟩
              else ⟨true, rpcs ++ [.launchProof], 200, "proof_launch_success"⟩
          | .error e =>
              ⟨true, rpcs ++ [.launchProof], (launchCatch cfg.debug e).1, "proof_launch_failed"⟩

/-- Observable outcome of one pass through
`app.post('/api/proof/launch', rateLimit, handler)` for a fixed client
key: the `rateLimit` middleware runs first (line 646), and only when it
calls `next()` does the handler body run. -/
structure EndpointOut where
  admitted : Bool
  ranValidation : Bool
  validationOk : Bool
  rpcs : List RpcName
  status : Nat
  reason : String
  rlAfter : Option RLRecord
deriving DecidableEq, Repr

/-- One request through the launch endpoint: rate limiting, then the
handler body. -/
def launchEndpoint (maxRequests : Nat) (windowMs : Int) (cfg : GwConfig)
    (c : Coord) (st : Option RLRecord) (now : Int) (r : LaunchReq) : EndpointOut :=
  match rlAdmit maxRequests windowMs now st with
  | (.rejected _ _, st2) => ⟨false, false, false, [], 429, "rate_limited", st2⟩
  | (.allowed, st2) =>
      let h := launchHandler cfg c r
      ⟨true, true, h.validationOk, h.rpcs, h.status, h.reason, st2⟩

/-! ## Binary discovery (`gateway-server.cjs` lines 1225-1260 and
1546-1595)

The filesystem and the `which` shell-out are the environment. `none` for
a `which*` field models the `execSync` call throwing. -/

structure DiscoveryEnv where
  whichCoordinator : Option String
  whichWorker : Option String
  fsExists : String → Bool
  home : String
  ziskRepo : Option String

/-- `path.join` for the two-segment joins the discovery code performs
(an empty `HOME` joins to the bare relative path). -/
def pjoin (a b : String) : String := if a = "" then b else a ++ "/" ++ b

/-- The `commonPaths` array of `findCoordinatorBinary` (lines 1237-1242). -/
def coordCommonPaths (env : DiscoveryEnv) : List String :=
  [ pjoin env.home ".zisk/bin/zisk-coordinator"
  , pjoin env.home ".local/bin/zisk-coordinator"
  , "/usr/local/bin/zisk-coordinator"
  , "/usr/bin/zisk-coordinator" ]

/-- The `commonPaths` array of `findWorkerBinary` (lines 1548-1553). -/
def workerCommonPaths (env : DiscoveryEnv) : List String :=
  [ pjoin env.home ".zisk/bin/zisk-worker"
  , pjoin env.home ".local/bin/zisk-worker"
  , "/usr/local/bin/zisk-worker"
  , "/usr/bin/zisk-worker" ]

/-- The repository build-directory step shared by both functions:
`target/release` then `target/debug` under `ZISK_REPO`, when a repo root
was discovered. -/
def repoBins (env : DiscoveryEnv) (name : String) : Option String :=
  match env.ziskRepo with
  | none => none
  | some repo =>
      let rel := repo ++ "/target/release/" ++ name
      let dbg := repo ++ "/target/debug/" ++ name
      if env.fsExists rel then some rel
      else if env.fsExists dbg then some dbg
      else none

/-- `findCoordinatorBinary` (lines 1225-1260): `which` first, then the
common installation directories, then the repo build directories. -/
def findCoordinatorBinary (env : DiscoveryEnv) : Option String :=
  let step2 :=
    match (coordCommonPaths env).find? env.fsExists with
    | some p => some p
    | none => repoBins env "zisk-coordinator"
  match env.whichCoordinator with
  | some w => if w ≠ "" && env.fsExists w then some w else step2
  | none => step2

/-- `findWorkerBinary` (lines 1546-1595): the common installation
directories first, then `which`, then the repo build directories. -/
def findWorkerBinary (env : DiscoveryEnv) : Option String :=
  match (workerCommonPaths env).find? env.fsExists with
  | some p => some p
  | none =>
      let step3 := repoBins env "zisk-worker"
      match env.whichWorker with
      | some w => if w ≠ "" && env.fsExists w then some w else step3
      | none => step3

/-- The `which` step as a candidate list: a nonempty `which` result is
one candidate, still subject to the `existsSync` check. -/
def whichCand : Option String → List String
  | some w => if w = "" then [] else [w]
  | none => []

/-- Repo build candidates as a list. -/
def repoCand (env : DiscoveryEnv) (name : String) : List String :=
  match env.ziskRepo with
  | some repo => [repo ++ "/target/release/" ++ name, repo ++ "/target/debug/" ++ name]
  | none => []

/-- The coordinator's effective search order. -/
def coordCandidates (env : DiscoveryEnv) : List String :=
  whichCand env.whichCoordinator ++ coordCommonPaths env ++ repoCand env "zisk-coordinator"

/-- The worker's effective search order (common directories before
`which`, unlike the coordinator). -/
def workerCandidates (env : DiscoveryEnv) : List String :=
  workerCommonPaths env ++ whichCand env.whichWorker ++ repoCand env "zisk-worker"

/-- Modelled from the spec: the four-step discovery algorithm the claim
describes — an explicit configuration override, then the PATH lookup,
then the conventional directories, then the build directories; first
existing match wins. -/
def claimedDiscovery (fsExists : String → Bool) (override whichResult : Option String)
    (common buildDirs : List String) : Option String :=
  (override.toList ++ whichResult.toList ++ common ++ buildDirs).find? fsExists

/-! ## Worker-start capacity handling (`gateway-server.cjs` lines
1650-1660) -/

/-- The `computeCapacity` handling of `/api/worker/start`: a falsy field
defaults to 10; otherwise `parseInt` must yield at least 1; the accepted
value is passed to the worker unchanged, with no maximum bound. -/
def workerStartCapacity (computeCapacity : JVal) : Except String Int :=
  if truthy computeCapacity then
    match parseIntJVal computeCapacity with
    | none => .error "Compute capacity must be a positive integer"
    | some capacity =>
        if capacity < 1 then .error "Compute capacity must be a positive integer"
        else .ok capacity
  else .ok 10

/-! ## Spec-side predicates (formalizing the claims' wording, for the
refinement comparisons) -/

/-- Modelled from the spec: `id` is a string matching
`^[A-Za-z0-9_-]{1,128}$` and is not one of the reserved literals. -/
def jobIdClaimOk : JVal → Bool
  | .vStr s =>
      decide (1 ≤ s.length) && decide (s.length ≤ 128) && s.data.all wordChar &&
        !(s = "undefined" || s = "null" || s = "true" || s = "false")
  | _ => false

/-- Modelled from the spec: the claim's rejection condition for
`validatePath` — empty, over 512 chars, contains `..` or `//`, has a
character outside the class, or resolves outside every allowed root. -/
def pathClaimReject (resolve : String → String) (allowed : Option (List String))
    (p : String) (kind : PathKind) : Bool :=
  decide (p = "") || decide (p.length > 512) || strHas p ".." || strHas p "//" ||
    !p.data.all pathChar ||
    (match allowed, kind with
     | some roots, .input => !roots.any (fun root => strStarts (resolve p) (resolve root))
     | _, _ => false)

/-! ## Claim theorems -/

/-- C5: for every input id, `validateJobId(id)` succeeds iff id is a
string matching `^[A-Za-z0-9_-]{1,128}$` and is not one of the literal
strings `undefined`, `null`, `true`, `false`. -/
theorem validateJobId_matches_spec (v : JVal) :
    (validateJobId v).valid = jobIdClaimOk v := by
  cases v with
  | vNull => rfl
  | vNum n => simp [validateJobId, isStr, vFail, jobIdClaimOk]
  | vBool b => simp [validateJobId, isStr, vFail, jobIdClaimOk]
  | vStr s =>
    by_cases hs : s = ""
    · subst hs; decide
    · have hlen : s.length = s.data.length := rfl
      have hlen0 : ¬ s.length = 0 := by
        intro h0
        apply hs
        have hd : s.data = [] := by
          have := hlen ▸ h0
          exact List.length_eq_zero.mp this
        cases s with
        | mk d => simp_all
      have hdne : ¬ s.data.isEmpty = true := by
        intro h
        exact hlen0 (by simp [hlen, List.isEmpty_iff.mp h])
      by_cases h128 : s.length > 128
      · have hn : ¬ s.length ≤ 128 := by omega
        simp [validateJobId, truthy, isStr, jstr, jobIdClaimOk, vFail, hs, hlen0, h128, hn]
      · have hle : s.length ≤ 128 := by omega
        have h1 : 1 ≤ s.length := by omega
        by_cases hw : s.data.all wordChar = true
        · by_cases hres : s = "undefined" ∨ s = "null" ∨ s = "true" ∨ s = "false"
          · obtain rfl | rfl | rfl | rfl := hres <;> decide
          · push_neg at hres
            obtain ⟨hr1, hr2, hr3, hr4⟩ := hres
            simp [validateJobId, truthy, isStr, jstr, jobIdClaimOk, vFail, vOk,
              wordCharsTest, hs, hlen0, h128, hw, hdne, hr1, hr2, hr3, hr4, hle, h1]
        · simp [validateJobId, truthy, isStr, jstr, jobIdClaimOk, vFail, vOk,
            wordCharsTest, hs, hlen0, h128, hw, hdne]

/-- C9 counterexample: the worker-start endpoint accepts a compute
capacity of 2000, above the default `MAX_CAPACITY` of 1000 that
`validateComputeCapacity` enforces for launch requests — no maximum is
applied on the worker-start path. -/
theorem worker_capacity_unbounded_cex :
    workerStartCapacity (.vStr "2000") = .ok 2000 ∧
    (validateComputeCapacity 1000 (.vStr "2000")).valid = false ∧
    ¬ ((2000 : Int) ≤ 1000) := by
  refine ⟨rfl, by decide, by decide⟩

/-- C9 amended: a falsy (in particular omitted) `computeCapacity` yields
the default 10; a truthy one is accepted exactly when `parseInt` yields
an integer of at least 1, which is passed through with no upper bound. -/
theorem worker_capacity_amended (v : JVal) (k : Int) :
    workerStartCapacity v = .ok k ↔
      ((truthy v = false ∧ k = 10) ∨
        (truthy v = true ∧ parseIntJVal v = some k ∧ 1 ≤ k)) := by
  unfold workerStartCapacity
  by_cases ht : truthy v = true
  · rw [if_pos ht]
    cases hp : parseIntJVal v with
    | none => simp [ht, hp]
    | some c =>
      by_cases hc : c < 1
      · simp [ht, hp, hc]
        omega
      · simp [ht, hp, hc]
        intro h
        omega
  · have ht2 : truthy v = false := by
      revert ht; cases truthy v <;> simp
    rw [if_neg ht]
    simp [ht2]
    omega

/-- C9 amended witness at concrete inputs. -/
theorem worker_capacity_amended_witness :
    workerStartCapacity (.vNum 5) = .ok 5 :=
  (worker_capacity_amended (.vNum 5) 5).mpr (Or.inr ⟨by decide, by decide, by decide⟩)

/-- C6 counterexample: the single-character path `/` is rejected by the
absolute-path re-check of `validatePath`, while none of the claim's
rejection conditions holds for it. -/
theorem validatePath_root_cex :
    (validatePath id none (.vStr "/") .input).valid = false ∧
    pathClaimReject id none "/" .input = false := by
  refine ⟨by decide, by decide⟩

/-- C4 counterexample: an error whose message carries a non-localhost
host:port pair is returned verbatim by `sanitizeError` (only
`localhost:port` and `127.0.0.1:port` fragments are replaced), so the
client-facing message still contains a host:port-like fragment. -/
theorem sanitize_error_hostport_cex :
    (sanitizeError false (some ⟨none, "connect failed to db.example.com:5432"⟩)).1 =
      "connect failed to db.example.com:5432" ∧
    strHostPort (sanitizeError false
      (some ⟨none, "connect failed to db.example.com:5432"⟩)).1 = true := by
  refine ⟨by decide, by decide⟩

/-- C1 counterexample coordinator state: zero workers while a job with
block id `b1` is active. -/
def cNoWorkersDup : Coord :=
  ⟨.ok (0, 0), .ok ["b1"], .ok "j1"⟩

/-- C1 counterexample: with zero total workers and an active job
carrying the same block id, the guard rejects with the 503
`no_workers_available` answer, not with the 409 Conflict the claim
requires for a duplicate block id (the jobs list is not even queried). -/
theorem launch_guard_conflict_cex :
    cNoWorkersDup.jobsList = .ok ["b1"] ∧
    "b1" ∈ ["b1"] ∧
    (guardRun cNoWorkersDup "b1").2 = some (503, "no_workers_available") ∧
    ¬ (guardRun cNoWorkersDup "b1").2 = some (409, "duplicate_block_id") ∧
    RpcName.jobsList ∉ (guardRun cNoWorkersDup "b1").1 := by
  refine ⟨rfl, by decide, by decide, by decide, by decide⟩

/-- C8 counterexample environment: the worker binary exists both on the
PATH and in the home installation directory. -/
def envDiff : DiscoveryEnv :=
  { whichCoordinator := none
  , whichWorker := some "/pathbin/zisk-worker"
  , fsExists := fun s => s == "/pathbin/zisk-worker" || s == "/home/u/.zisk/bin/zisk-worker"
  , home := "/home/u"
  , ziskRepo := none }

/-- C8 counterexample: the claimed algorithm (override, then PATH, then
conventional directories, then build directories) picks the PATH hit,
but `findWorkerBinary` checks the conventional directories first and
returns the home installation — the worker does not follow the claimed
order (the coordinator does check PATH first). -/
theorem binary_discovery_order_cex :
    findWorkerBinary envDiff = some "/home/u/.zisk/bin/zisk-worker" ∧
    claimedDiscovery envDiff.fsExists none envDiff.whichWorker
      (workerCommonPaths envDiff) [] = some "/pathbin/zisk-worker" ∧
    ¬ (findWorkerBinary envDiff =
        claimedDiscovery envDiff.fsExists none envDiff.whichWorker
          (workerCommonPaths envDiff) []) := by
  refine ⟨by decide, by decide, by decide⟩

/-- C6 amended: `validatePath` rejects a string `p` iff the claim's
conditions hold — empty, over 512 chars, `..` or `//`, a character
outside the class, or (allow-list configured, kind `input`) resolving
outside every allowed root — or `p` is the single-character string `/`,
which the absolute-path re-check additionally rejects. -/
theorem validatePath_reject_amended (resolve : String → String)
    (allowed : Option (List String)) (p : String) (kind : PathKind) :
    (validatePath resolve allowed (.vStr p) kind).valid = false ↔
      (pathClaimReject resolve allowed p kind = true ∨ p = "/") := by
  by_cases hs : p = ""
  · subst hs
    simp [validatePath, pathClaimReject, truthy, isStr, vFail]
  · have hlen : p.length = p.data.length := rfl
    have hdne : ¬ p.data = [] := by
      intro h
      apply hs
      cases p with
      | mk d => simp_all
    have hlen0 : ¬ p.length = 0 := by
      rw [hlen]
      exact fun h0 => hdne (List.length_eq_zero.mp h0)
    by_cases h512 : p.length > 512
    · simp [validatePath, pathClaimReject, truthy, isStr, jstr, vFail, hs, hlen0, h512]
    · by_cases hdots : strHas p ".." = true
      · simp [validatePath, pathClaimReject, truthy, isStr, jstr, vFail,
          hs, hlen0, h512, hdots]
      · by_cases hslash : strHas p "//" = true
        · simp [validatePath, pathClaimReject, truthy, isStr, jstr, vFail,
            hs, hlen0, h512, hdots, hslash]
        · by_cases hchar : p.data.all pathChar = true
          · by_cases hroot : p = "/"
            · subst hroot
              exact ⟨fun _ => Or.inr rfl, fun _ => rfl⟩
            · have hb5 : (strStarts p "/" && !absPathTest p) = false := by
                cases hd : p.data with
                | nil => exact absurd hd hdne
                | cons a rest =>
                  by_cases ha : a = '/'
                  · subst ha
                    have hrest : ¬ rest = [] := by
                      intro h
                      apply hroot
                      cases p with
                      | mk d =>
                        simp only [String.data] at hd
                        rw [hd, h]
                    have hallrest : rest.all pathChar = true := by
                      rw [hd] at hchar
                      simp only [List.all_cons, Bool.and_eq_true] at hchar
                      exact hchar.2
                    simp [absPathTest, hd, hrest, hallrest]
                  · have hns : strStarts p "/" = false := by
                      have ha2 : ¬ ('/' = a) := fun h => ha h.symm
                      simp [strStarts, hd, List.isPrefixOf, ha2]
                    simp [hns]
              cases allowed with
              | none =>
                simp [validatePath, pathClaimReject, truthy, isStr, jstr, vFail, vOk,
                  pathCharsTest, hs, hlen0, h512, hdots, hslash, hchar, hdne, hb5, hroot]
              | some roots =>
                cases kind with
                | elf =>
                  simp [validatePath, pathClaimReject, truthy, isStr, jstr, vFail, vOk,
                    pathCharsTest, hs, hlen0, h512, hdots, hslash, hchar, hdne, hb5, hroot]
                | input =>
                  by_cases hany :
                      roots.any (fun root => strStarts (resolve p) (resolve root)) = true
                  · simp [validatePath, pathClaimReject, truthy, isStr, jstr, vFail, vOk,
                      pathCharsTest, hs, hlen0, h512, hdots, hslash, hchar, hdne, hb5,
                      hroot, hany]
                  · simp [validatePath, pathClaimReject, truthy, isStr, jstr, vFail, vOk,
                      pathCharsTest, hs, hlen0, h512, hdots, hslash, hchar, hdne, hb5,
                      hroot, hany]
          · simp [validatePath, pathClaimReject, truthy, isStr, jstr, vFail,
              pathCharsTest, hs, hlen0, h512, hdots, hslash, hchar, hdne]

/-- C6 amended witness: a path containing `..` is rejected, through the
amended characterization. -/
theorem validatePath_reject_amended_witness :
    (validatePath id none (.vStr "/data/../etc") .input).valid = false :=
  (validatePath_reject_amended id none "/data/../etc" .input).mpr (Or.inl (by decide))

/-- Threading of `rlRun` across an appended request list. -/
theorem rlRun_append (maxRequests : Nat) (windowMs : Int) (st : Option RLRecord)
    (l1 l2 : List Int) :
    rlRun maxRequests windowMs st (l1 ++ l2) =
      ((rlRun maxRequests windowMs st l1).1 ++
        (rlRun maxRequests windowMs (rlRun maxRequests windowMs st l1).2 l2).1,
       (rlRun maxRequests windowMs (rlRun maxRequests windowMs st l1).2 l2).2) := by
  induction l1 generalizing st with
  | nil => simp [rlRun]
  | cons t ts ih =>
    simp only [List.cons_append, rlRun, List.append_eq]
    rw [ih]

/-- Requests inside the window, starting from a counted record, are all
admitted and only advance the counter while `count` stays below the
ceiling. -/
theorem rlRun_within (maxRequests : Nat) (windowMs : Int) (ts : List Int) :
    ∀ (c : Nat) (R : Int), (∀ t ∈ ts, t ≤ R) → c + ts.length ≤ maxRequests →
      rlRun maxRequests windowMs (some ⟨c, R⟩) ts =
        (List.replicate ts.length AdmitResult.allowed, some ⟨c + ts.length, R⟩) := by
  induction ts with
  | nil =>
    intro c R _ _
    simp [rlRun]
  | cons t ts ih =>
    intro c R hmem hbound
    have ht : t ≤ R := hmem t (by simp)
    have hroll : ¬ t > R := by omega
    have hcount : ¬ c ≥ maxRequests := by
      simp only [List.length_cons] at hbound
      omega
    have hstep : rlAdmit maxRequests windowMs t (some ⟨c, R⟩) =
        (AdmitResult.allowed, some ⟨c + 1, R⟩) := by
      simp [rlAdmit, hroll, hcount]
    simp only [rlRun, hstep]
    rw [ih (c + 1) R (fun x hx => hmem x (by simp [hx]))
      (by simp only [List.length_cons] at hbound; omega)]
    simp only [List.replicate_succ, List.length_cons]
    have harith : c + 1 + ts.length = c + (ts.length + 1) := by omega
    rw [harith]

/-- C7: in a window begun by the first request after creation (record
absent) or after rollover (a stale record whose reset time has passed),
the first `maxRequestsPerWindow` requests of a fixed key are admitted
and any further request arriving before the window's reset time is
rejected with a 429 carrying the configured limit and window length. -/
theorem rate_limit_window (maxRequests : Nat) (windowMs t0 textra : Int)
    (ts : List Int) (st : Option RLRecord)
    (hstart : st = none ∨ ∃ record, st = some record ∧ t0 > record.resetTime)
    (hmax : 1 ≤ maxRequests) (hlen : ts.length = maxRequests - 1)
    (hts : ∀ t ∈ ts, t ≤ t0 + windowMs) (hextra : textra ≤ t0 + windowMs) :
    rlRun maxRequests windowMs st (t0 :: ts ++ [textra]) =
      (List.replicate maxRequests AdmitResult.allowed ++
        [AdmitResult.rejected maxRequests windowMs],
       some ⟨maxRequests, t0 + windowMs⟩) := by
  obtain ⟨m, rfl⟩ : ∃ m, maxRequests = m + 1 := ⟨maxRequests - 1, by omega⟩
  have hlen2 : ts.length = m := by omega
  have hfirst : rlAdmit (m + 1) windowMs t0 st =
      (AdmitResult.allowed, some ⟨1, t0 + windowMs⟩) := by
    rcases hstart with rfl | ⟨record, rfl, hroll⟩
    · simp [rlAdmit]
    · simp [rlAdmit, hroll]
  have hmid := rlRun_within (m + 1) windowMs ts 1 (t0 + windowMs) hts (by omega)
  have hlast : rlAdmit (m + 1) windowMs textra (some ⟨1 + ts.length, t0 + windowMs⟩) =
      (AdmitResult.rejected (m + 1) windowMs, some ⟨1 + ts.length, t0 + windowMs⟩) := by
    have h1 : ¬ textra > t0 + windowMs := by omega
    have h2 : 1 + ts.length ≥ m + 1 := by omega
    simp [rlAdmit, h1, h2]
  have hsplit : (t0 :: ts ++ [textra]) = t0 :: (ts ++ [textra]) := rfl
  rw [hsplit]
  simp only [rlRun, hfirst]
  rw [rlRun_append, hmid]
  simp only [rlRun, hlast]
  rw [hlen2]
  have h1m : 1 + m = m + 1 := by omega
  rw [h1m, List.replicate_succ]
  rfl

/-- C7 witness: limit 2, window 100 starting at time 0 — two admissions,
then a third request at the reset boundary is rejected with the limit
and window; once for a window begun at record creation, and once for a
window begun by rolling over a stale, exhausted record. -/
theorem rate_limit_window_witness :
    rlRun 2 100 none (0 :: [50] ++ [100]) =
      (List.replicate 2 AdmitResult.allowed ++ [AdmitResult.rejected 2 100],
       some ⟨2, 0 + 100⟩) ∧
    rlRun 2 100 (some ⟨2, -5⟩) (0 :: [50] ++ [100]) =
      (List.replicate 2 AdmitResult.allowed ++ [AdmitResult.rejected 2 100],
       some ⟨2, 0 + 100⟩) :=
  ⟨rate_limit_window 2 100 0 100 [50] none (Or.inl rfl) (by decide) (by decide)
      (by intro t ht; simp at ht; omega) (by decide),
   rate_limit_window 2 100 0 100 [50] (some ⟨2, -5⟩)
      (Or.inr ⟨⟨2, -5⟩, rfl, by decide⟩) (by decide) (by decide)
      (by intro t ht; simp at ht; omega) (by decide)⟩

/-- Invariant of the call state: the timer is armed exactly while the
call is unsettled, the `completed` flag tracks whether a settlement was
made, and at most one settlement ever happens. -/
def callInv (s : CallSt) : Prop :=
  s.timerArmed = !s.completed ∧ (s.completed = true ↔ ¬ s.settleCalls = []) ∧
    s.settleCalls.length ≤ 1

theorem callInv_init : callInv callInit := by
  simp [callInv, callInit]

theorem callInv_finish (s : CallSt) (o : COutcome) (h : callInv s) :
    callInv (finishCall s o) := by
  obtain ⟨h1, h2, h3⟩ := h
  by_cases hc : s.completed = true
  · simp only [finishCall, hc, if_true]
    exact ⟨h1, h2, h3⟩
  · have hc2 : s.completed = false := by
      revert hc; cases s.completed <;> simp
    have hnil : s.settleCalls = [] := by
      by_contra hn
      rw [hc2] at h2
      exact absurd (h2.mpr hn) (by simp)
    simp [finishCall, hc2, callInv, hnil]

theorem callInv_step (s : CallSt) (e : CEvent) (h : callInv s) :
    callInv (stepCall s e) := by
  obtain ⟨h1, h2, h3⟩ := h
  cases e with
  | callback failed =>
    by_cases hc : s.completed = true
    · simp only [stepCall, hc, if_true]
      exact ⟨h1, h2, h3⟩
    · have hc2 : s.completed = false := by
        revert hc; cases s.completed <;> simp
      simp only [stepCall, hc2, Bool.false_eq_true, if_false]
      exact callInv_finish s _ ⟨h1, h2, h3⟩
  | streamError =>
    by_cases hc : s.completed = true
    · simp only [stepCall, hc, if_true]
      exact ⟨h1, h2, h3⟩
    · have hc2 : s.completed = false := by
        revert hc; cases s.completed <;> simp
      simp only [stepCall, hc2, Bool.false_eq_true, if_false]
      exact callInv_finish s _ ⟨h1, h2, h3⟩
  | statusEvt code =>
    simp only [stepCall]
    split
    · exact callInv_finish s _ ⟨h1, h2, h3⟩
    · exact ⟨h1, h2, h3⟩
  | timerFire =>
    simp only [stepCall]
    split
    · exact ⟨h1, h2, h3⟩
    · rename_i harm
      have harm2 : s.timerArmed = true := by
        revert harm; cases s.timerArmed <;> simp
      have hc2 : s.completed = false := by
        rw [harm2] at h1
        revert h1; cases s.completed <;> simp
      have hnil : s.settleCalls = [] := by
        by_contra hn
        rw [hc2] at h2
        exact absurd (h2.mpr hn) (by simp)
      simp [hc2, finishCall, callInv, hnil]

theorem stepCall_settled_noop (s : CallSt) (e : CEvent) (h : callInv s)
    (hc : s.completed = true) : stepCall s e = s := by
  obtain ⟨h1, _, _⟩ := h
  have harm : s.timerArmed = false := by rw [h1, hc]; rfl
  cases e <;> simp [stepCall, hc, harm]

theorem stepCall_forces (s : CallSt) (e : CEvent) (h : callInv s)
    (hf : forcing e = true) : (stepCall s e).completed = true := by
  by_cases hc : s.completed = true
  · rw [stepCall_settled_noop s e h hc]
    exact hc
  · have hc2 : s.completed = false := by
      revert hc; cases s.completed <;> simp
    obtain ⟨h1, h2, h3⟩ := h
    cases e with
    | callback failed =>
      simp [stepCall, hc2, finishCall]
    | streamError =>
      simp [stepCall, hc2, finishCall]
    | statusEvt code =>
      simp only [forcing, Bool.and_eq_true, decide_eq_true_eq] at hf
      simp [stepCall, hc2, finishCall, hf.1, hf.2]
    | timerFire =>
      have harm : s.timerArmed = true := by rw [h1, hc2]; rfl
      simp [stepCall, hc2, harm, finishCall]

theorem foldl_callInv (l : List CEvent) (s : CallSt) (h : callInv s) :
    callInv (l.foldl stepCall s) := by
  induction l generalizing s with
  | nil => exact h
  | cons e l ih =>
    simp only [List.foldl_cons]
    exact ih _ (callInv_step s e h)

theorem foldl_settled_noop (l : List CEvent) (s : CallSt) (h : callInv s)
    (hc : s.completed = true) : l.foldl stepCall s = s := by
  induction l with
  | nil => rfl
  | cons e l ih =>
    simp only [List.foldl_cons]
    rw [stepCall_settled_noop s e h hc]
    exact ih

theorem foldl_forces (l : List CEvent) (s : CallSt) (h : callInv s)
    (hf : ∃ e ∈ l, forcing e = true) : (l.foldl stepCall s).completed = true := by
  induction l generalizing s with
  | nil =>
    obtain ⟨e, he, _⟩ := hf
    exact absurd he (by simp)
  | cons e l ih =>
    obtain ⟨e2, he2, hfe2⟩ := hf
    rcases List.mem_cons.mp he2 with rfl | hm
    · have hcomp := stepCall_forces s e2 h hfe2
      have hinv := callInv_step s e2 h
      simp only [List.foldl_cons]
      rw [foldl_settled_noop l _ hinv hcomp]
      exact hcomp
    · simp only [List.foldl_cons]
      exact ih _ (callInv_step s e h) ⟨e2, hm, hfe2⟩

/-- C2: however many transport events fire, in whatever order, the
promise of `grpcCall` is settled at most once, and exactly once when any
settling-capable event (callback, stream error, non-OK non-CANCELLED
status, deadline timer) fires; the deadline timer is cleared whenever a
settlement was made; and all events after a settlement are no-ops on the
call state. -/
theorem grpc_call_settles_once (events : List CEvent) :
    (runCall events).settleCalls.length ≤ 1 ∧
    ((∃ e ∈ events, forcing e = true) → (runCall events).settleCalls.length = 1) ∧
    ((runCall events).settleCalls ≠ [] → (runCall events).timerArmed = false) ∧
    (∀ e, (runCall events).completed = true →
      stepCall (runCall events) e = runCall events) := by
  have hinv : callInv (runCall events) := foldl_callInv events callInit callInv_init
  obtain ⟨h1, h2, h3⟩ := hinv
  refine ⟨h3, ?_, ?_, ?_⟩
  · intro hf
    have hcomp : (runCall events).completed = true :=
      foldl_forces events callInit callInv_init hf
    have hne := h2.mp hcomp
    cases hl : (runCall events).settleCalls with
    | nil => exact absurd hl hne
    | cons a t =>
      rw [hl] at h3
      simp only [List.length_cons] at h3
      have ht0 : t.length = 0 := by omega
      simp [List.length_cons, ht0]
  · intro hne
    have hcomp := h2.mpr hne
    rw [h1, hcomp]
    rfl
  · intro e hc
    exact stepCall_settled_noop _ e ⟨h1, h2, h3⟩ hc

/-- C2 witness: a timer expiry followed by a late callback and a late
stream error settles exactly once and leaves the timer cleared. -/
theorem grpc_call_settles_once_witness :
    (runCall [CEvent.timerFire, CEvent.callback false, CEvent.streamError]).settleCalls.length = 1 ∧
    (runCall [CEvent.timerFire, CEvent.callback false, CEvent.streamError]).timerArmed = false :=
  ⟨(grpc_call_settles_once [CEvent.timerFire, CEvent.callback false, CEvent.streamError]).2.1
      ⟨CEvent.timerFire, by decide, rfl⟩,
   (grpc_call_settles_once [CEvent.timerFire, CEvent.callback false, CEvent.streamError]).2.2.1
      (by decide)⟩

/-- C4 amended: the raw error is written to local logging exactly when
the debug flag is set; every client-facing message is one of eight fixed
safe strings (none of which contains a host:port-like fragment or a
slash), or the raw message with only `localhost:port` and
`127.0.0.1:port` fragments replaced by `server` (other host:port and
path fragments survive), or — for long messages with no recognized
code or marker — the raw message truncated to 200 characters plus an
ellipsis (which may retain path fragments). -/
theorem sanitize_error_shape (debug : Bool) (error : Option GErr) :
    (sanitizeError debug error).2 = debug ∧
    ((sanitizeError debug error).1 ∈ sanitizeFixed ∨
      (∃ e, error = some e ∧ (sanitizeError debug error).1 = replaceHosts e.message) ∨
      (∃ e, error = some e ∧ e.message.length > 200 ∧
        (sanitizeError debug error).1 = strTake e.message 200 ++ "...")) ∧
    (∀ m ∈ sanitizeFixed, strHostPort m = false ∧ strHas m "/" = false) := by
  refine ⟨?_, ?_, by decide⟩
  · cases error with
    | none => rfl
    | some e =>
      simp only [sanitizeError]
      repeat' split
      all_goals rfl
  · cases error with
    | none =>
      refine Or.inl ?_
      show "Internal server error" ∈ sanitizeFixed
      decide
    | some e =>
      by_cases hnf : e.code = some stNOT_FOUND
      · refine Or.inl ?_
        have hr : (sanitizeError debug (some e)).1 = "Resource not found" := by
          simp [sanitizeError, hnf]
        rw [hr]; decide
      · by_cases hua : e.code = some stUNAVAILABLE
        · refine Or.inl ?_
          have hr : (sanitizeError debug (some e)).1 =
              "Service unavailable - coordinator may be down" := by
            simp [sanitizeError, hnf, hua, stNOT_FOUND, stUNAVAILABLE, stDEADLINE_EXCEEDED, stINVALID_ARGUMENT, stPERMISSION_DENIED]
          rw [hr]
          decide
        · by_cases hde : e.code = some stDEADLINE_EXCEEDED
          · refine Or.inl ?_
            have hr : (sanitizeError debug (some e)).1 =
                "Request timeout - service is overloaded" := by
              simp [sanitizeError, hnf, hua, hde, stNOT_FOUND, stUNAVAILABLE, stDEADLINE_EXCEEDED, stINVALID_ARGUMENT, stPERMISSION_DENIED]
            rw [hr]
            decide
          · by_cases hia : e.code = some stINVALID_ARGUMENT
            · refine Or.inl ?_
              have hr : (sanitizeError debug (some e)).1 =
                  "Invalid request parameters" := by
                simp [sanitizeError, hnf, hua, hde, hia, stNOT_FOUND, stUNAVAILABLE, stDEADLINE_EXCEEDED, stINVALID_ARGUMENT, stPERMISSION_DENIED]
              rw [hr]
              decide
            · by_cases hpd : e.code = some stPERMISSION_DENIED
              · refine Or.inl ?_
                have hr : (sanitizeError debug (some e)).1 = "Permission denied" := by
                  simp [sanitizeError, hnf, hua, hde, hia, hpd, stNOT_FOUND, stUNAVAILABLE, stDEADLINE_EXCEEDED, stINVALID_ARGUMENT, stPERMISSION_DENIED]
                rw [hr]
                decide
              · by_cases htm : (e.message ≠ "" && strHas e.message "timeout") = true
                · refine Or.inl ?_
                  have hr : (sanitizeError debug (some e)).1 =
                      "Request timeout - service is not responding" := by
                    simp only [sanitizeError]
                    rw [if_neg hnf, if_neg hua, if_neg hde, if_neg hia, if_neg hpd,
                      if_pos htm]
                  rw [hr]; decide
                · by_cases hpr :
                      (strHas e.message "PROTO_PATH" || strHas e.message "proto") = true
                  · refine Or.inl ?_
                    have hr : (sanitizeError debug (some e)).1 = "Configuration error" := by
                      simp only [sanitizeError]
                      rw [if_neg hnf, if_neg hua, if_neg hde, if_neg hia, if_neg hpd,
                        if_neg htm, if_pos hpr]
                    rw [hr]; decide
                  · by_cases hco : (strHas e.message "localhost" ||
                        strHas e.message "127.0.0.1" || strHas e.message ":") = true
                    · refine Or.inr (Or.inl ⟨e, rfl, ?_⟩)
                      simp only [sanitizeError]
                      rw [if_neg hnf, if_neg hua, if_neg hde, if_neg hia, if_neg hpd,
                        if_neg htm, if_neg hpr, if_pos hco]
                    · by_cases hlong : e.message.length > 200
                      · refine Or.inr (Or.inr ⟨e, rfl, hlong, ?_⟩)
                        simp only [sanitizeError]
                        rw [if_neg hnf, if_neg hua, if_neg hde, if_neg hia, if_neg hpd,
                          if_neg htm, if_neg hpr, if_neg hco, if_pos hlong]
                      · refine Or.inl ?_
                        have hr : (sanitizeError debug (some e)).1 =
                            "Internal server error" := by
                          simp only [sanitizeError]
                          rw [if_neg hnf, if_neg hua, if_neg hde, if_neg hia, if_neg hpd,
                            if_neg htm, if_neg hpr, if_neg hco, if_neg hlong]
                        rw [hr]; decide

/-- C4 amended witness: a recognized code maps to a fixed safe string,
the flag behaviour and safety checks instantiated concretely. -/
theorem sanitize_error_shape_witness :
    (sanitizeError true (some ⟨some stNOT_FOUND, "x"⟩)).2 = true ∧
    (strHostPort "Internal server error" = false ∧
      strHas "Internal server error" "/" = false) :=
  ⟨(sanitize_error_shape true (some ⟨some stNOT_FOUND, "x"⟩)).1,
   (sanitize_error_shape true (some ⟨some stNOT_FOUND, "x"⟩)).2.2
     "Internal server error" (by decide)⟩

/-- `find?` distributes over an appended candidate list. -/
theorem findFirstAppend {α : Type} (p : α → Bool) (l1 l2 : List α) :
    (l1 ++ l2).find? p = ((l1.find? p).orElse fun _ => l2.find? p) := by
  induction l1 with
  | nil => simp [List.find?, Option.orElse]
  | cons a l ih =>
    by_cases h : p a = true
    · simp [List.find?, h, Option.orElse]
    · have h2 : p a = false := by revert h; cases p a <;> simp
      simp [List.find?, h2, ih]

/-- The repo build step is the first existing candidate of `repoCand`. -/
theorem repoBins_eq_find (env : DiscoveryEnv) (name : String) :
    repoBins env name = (repoCand env name).find? env.fsExists := by
  unfold repoBins repoCand
  cases env.ziskRepo with
  | none => rfl
  | some repo =>
    by_cases h1 : env.fsExists (repo ++ "/target/release/" ++ name) = true
    · simp [List.find?, h1]
    · have h1f : env.fsExists (repo ++ "/target/release/" ++ name) = false := by
        revert h1; cases env.fsExists (repo ++ "/target/release/" ++ name) <;> simp
      by_cases h2 : env.fsExists (repo ++ "/target/debug/" ++ name) = true
      · simp [List.find?, h1f, h2]
      · have h2f : env.fsExists (repo ++ "/target/debug/" ++ name) = false := by
          revert h2; cases env.fsExists (repo ++ "/target/debug/" ++ name) <;> simp
        simp [List.find?, h1f, h2f]

/-- C8 amended: both discovery functions return the first existing
candidate of their search order, but the orders differ and neither has a
configuration-override step: the coordinator checks the PATH lookup,
then the conventional directories, then the repo build directories,
while the worker checks the conventional directories before the PATH
lookup. -/
theorem binary_discovery_order (env : DiscoveryEnv) :
    findCoordinatorBinary env = (coordCandidates env).find? env.fsExists ∧
    findWorkerBinary env = (workerCandidates env).find? env.fsExists := by
  constructor
  · unfold findCoordinatorBinary coordCandidates
    rw [findFirstAppend, findFirstAppend, ← repoBins_eq_find]
    generalize (coordCommonPaths env).find? env.fsExists = fc
    cases env.whichCoordinator with
    | none => cases fc <;> simp [whichCand, Option.orElse]
    | some w =>
      by_cases hw : w = ""
      · subst hw
        cases fc <;> simp [whichCand, Option.orElse]
      · by_cases hx : env.fsExists w = true
        · cases fc <;> simp [whichCand, hw, hx, Option.orElse, List.find?]
        · have hxf : env.fsExists w = false := by
            revert hx; cases env.fsExists w <;> simp
          cases fc <;> simp [whichCand, hw, hxf, Option.orElse, List.find?]
  · unfold findWorkerBinary workerCandidates
    rw [findFirstAppend, findFirstAppend, ← repoBins_eq_find]
    generalize (workerCommonPaths env).find? env.fsExists = fc
    cases fc with
    | some p => simp [Option.orElse]
    | none =>
      cases env.whichWorker with
      | none => simp [whichCand, Option.orElse]
      | some w =>
        by_cases hw : w = ""
        · subst hw
          simp [whichCand, Option.orElse]
        · by_cases hx : env.fsExists w = true
          · simp [whichCand, hw, hx, Option.orElse, List.find?]
          · have hxf : env.fsExists w = false := by
              revert hx; cases env.fsExists w <;> simp
            simp [whichCand, hw, hxf, Option.orElse, List.find?]

/-- The guard never issues the `LaunchProof` RPC itself. -/
theorem guard_no_launch (c : Coord) (bid : String) :
    RpcName.launchProof ∉ (guardRun c bid).1 := by
  rcases hss : c.systemStatus with u | ⟨t, i⟩
  · simp [guardRun, hss]
  · by_cases ht : t = 0
    · simp [guardRun, hss, ht]
    · by_cases hi : i = 0
      · simp [guardRun, hss, ht, hi]
      · rcases hjl : c.jobsList with u2 | jobs
        · simp [guardRun, hss, ht, hi, hjl]
        · by_cases hmem : bid ∈ jobs
          · simp [guardRun, hss, ht, hi, hjl, hmem]
          · simp [guardRun, hss, ht, hi, hjl, hmem]

/-- If the handler issued `LaunchProof`, the guard applied no rejection. -/
theorem launchProof_mem_guard (cfg : GwConfig) (c : Coord) (r : LaunchReq)
    (h : RpcName.launchProof ∈ (launchHandler cfg c r).rpcs) :
    (guardRun c (jstr r.block_id)).2 = none := by
  unfold launchHandler at h
  rcases hv : handlerValidation cfg r with _ | reason
  · rw [hv] at h
    rcases hg : guardRun c (jstr r.block_id) with ⟨rpcs, rej⟩
    cases rej with
    | none => rfl
    | some cr =>
      obtain ⟨code, reason⟩ := cr
      have hng := guard_no_launch c (jstr r.block_id)
      rw [hg] at hng h
      simp at h hng
      exact absurd h hng
  · rw [hv] at h
    simp at h

/-- C1 amended: the guard checks worker availability first — 503
`no_workers_available` exactly when the coordinator reports zero total
workers, else 503 `all_workers_busy` exactly when it reports zero idle
workers — and only otherwise queries the active jobs and rejects 409
`duplicate_block_id` exactly when an active job carries the same block
id; every rejection happens before any `LaunchProof` RPC. A duplicate
coexisting with zero total or idle workers therefore yields 503, not
409. -/
theorem launch_guard_admission (c : Coord) (bid : String) :
    ((guardRun c bid).2 = some (503, "no_workers_available") ↔
      ∃ i, c.systemStatus = .ok (0, i)) ∧
    ((guardRun c bid).2 = some (503, "all_workers_busy") ↔
      ∃ t i, c.systemStatus = .ok (t, i) ∧ t ≠ 0 ∧ i = 0) ∧
    ((guardRun c bid).2 = some (409, "duplicate_block_id") ↔
      ∃ t i jobs, c.systemStatus = .ok (t, i) ∧ t ≠ 0 ∧ i ≠ 0 ∧
        c.jobsList = .ok jobs ∧ bid ∈ jobs) ∧
    (∀ cfg r, RpcName.launchProof ∈ (launchHandler cfg c r).rpcs →
      (guardRun c (jstr r.block_id)).2 = none) := by
  have hml : ∀ cfg r, RpcName.launchProof ∈ (launchHandler cfg c r).rpcs →
      (guardRun c (jstr r.block_id)).2 = none :=
    fun cfg r h => launchProof_mem_guard cfg c r h
  rcases hss : c.systemStatus with u | ⟨t, i⟩
  · have hg : (guardRun c bid).2 = none := by simp [guardRun, hss]
    refine ⟨?_, ?_, ?_, hml⟩ <;> rw [hg]
    · constructor
      · intro h; exact Option.noConfusion h
      · rintro ⟨i, h⟩; exact Except.noConfusion h
    · constructor
      · intro h; exact Option.noConfusion h
      · rintro ⟨t, i, h, _, _⟩; exact Except.noConfusion h
    · constructor
      · intro h; exact Option.noConfusion h
      · rintro ⟨t, i, jobs, h, _⟩; exact Except.noConfusion h
  · by_cases ht : t = 0
    · subst ht
      have hg : (guardRun c bid).2 = some (503, "no_workers_available") := by
        simp [guardRun, hss]
      refine ⟨?_, ?_, ?_, hml⟩ <;> rw [hg]
      · exact ⟨fun _ => ⟨i, rfl⟩, fun _ => rfl⟩
      · constructor
        · intro h
          injection h with hp
          injection hp with h1 h2
          exact absurd h2 (by decide)
        · rintro ⟨t2, i2, h, ht2, _⟩
          injection h with hp
          injection hp with h1 h2
          exact absurd h1.symm ht2
      · constructor
        · intro h
          injection h with hp
          injection hp with h1 h2
          exact absurd h1 (by decide)
        · rintro ⟨t2, i2, jobs, h, ht2, _⟩
          injection h with hp
          injection hp with h1 h2
          exact absurd h1.symm ht2
    · by_cases hi : i = 0
      · subst hi
        have hg : (guardRun c bid).2 = some (503, "all_workers_busy") := by
          simp [guardRun, hss, ht]
        refine ⟨?_, ?_, ?_, hml⟩ <;> rw [hg]
        · constructor
          · intro h
            injection h with hp
            injection hp with h1 h2
            exact absurd h2 (by decide)
          · rintro ⟨i2, h⟩
            injection h with hp
            injection hp with h1 h2
            exact absurd h1 ht
        · exact ⟨fun _ => ⟨t, 0, rfl, ht, rfl⟩, fun _ => rfl⟩
        · constructor
          · intro h
            injection h with hp
            injection hp with h1 h2
            exact absurd h1 (by decide)
          · rintro ⟨t2, i2, jobs, h, ht2, hi2, _⟩
            injection h with hp
            injection hp with h1 h2
            exact absurd h2.symm hi2
      · rcases hjl : c.jobsList with u2 | jobs
        · have hg : (guardRun c bid).2 = none := by simp [guardRun, hss, ht, hi, hjl]
          refine ⟨?_, ?_, ?_, hml⟩ <;> rw [hg]
          · constructor
            · intro h; exact Option.noConfusion h
            · rintro ⟨i2, h⟩
              injection h with hp
              injection hp with h1 h2
              exact absurd h1 ht
          · constructor
            · intro h; exact Option.noConfusion h
            · rintro ⟨t2, i2, h, ht2, hi2⟩
              injection h with hp
              injection hp with h1 h2
              exact absurd (h2.trans hi2) hi
          · constructor
            · intro h; exact Option.noConfusion h
            · rintro ⟨t2, i2, jobs2, h, ht2, hi2, hj, hmem⟩
              exact Except.noConfusion hj
        · by_cases hmem : bid ∈ jobs
          · have hg : (guardRun c bid).2 = some (409, "duplicate_block_id") := by
              simp [guardRun, hss, ht, hi, hjl, hmem]
            refine ⟨?_, ?_, ?_, hml⟩ <;> rw [hg]
            · constructor
              · intro h
                injection h with hp
                injection hp with h1 h2
                exact absurd h1 (by decide)
              · rintro ⟨i2, h⟩
                injection h with hp
                injection hp with h1 h2
                exact absurd h1 ht
            · constructor
              · intro h
                injection h with hp
                injection hp with h1 h2
                exact absurd h1 (by decide)
              · rintro ⟨t2, i2, h, ht2, hi2⟩
                injection h with hp
                injection hp with h1 h2
                exact absurd (h2.trans hi2) hi
            · exact ⟨fun _ => ⟨t, i, jobs, rfl, ht, hi, rfl, hmem⟩, fun _ => rfl⟩
          · have hg : (guardRun c bid).2 = none := by
              simp [guardRun, hss, ht, hi, hjl, hmem]
            refine ⟨?_, ?_, ?_, hml⟩ <;> rw [hg]
            · constructor
              · intro h; exact Option.noConfusion h
              · rintro ⟨i2, h⟩
                injection h with hp
                injection hp with h1 h2
                exact absurd h1 ht
            · constructor
              · intro h; exact Option.noConfusion h
              · rintro ⟨t2, i2, h, ht2, hi2⟩
                injection h with hp
                injection hp with h1 h2
                exact absurd (h2.trans hi2) hi
            · constructor
              · intro h; exact Option.noConfusion h
              · rintro ⟨t2, i2, jobs2, h, ht2, hi2, hj, hmem2⟩
                injection hj with hjobs
                rw [← hjobs] at hmem2
                exact absurd hmem2 hmem

/-- C1 amended witness: zero workers with a duplicate active job yields
the `no_workers_available` 503, via the characterization. -/
theorem launch_guard_admission_witness :
    (guardRun cNoWorkersDup "b1").2 = some (503, "no_workers_available") :=
  (launch_guard_admission cNoWorkersDup "b1").1.mpr ⟨0, rfl⟩

/-- A rejected `rlAdmit` pass leaves the record untouched. -/
theorem rlAdmit_rejected_state (maxRequests : Nat) (windowMs now : Int)
    (st st2 : Option RLRecord) (m : Nat) (w : Int)
    (h : rlAdmit maxRequests windowMs now st = (.rejected m w, st2)) : st2 = st := by
  cases st with
  | none => simp [rlAdmit] at h
  | some record =>
    simp only [rlAdmit] at h
    by_cases h1 : now > record.resetTime
    · rw [if_pos h1] at h
      simp at h
    · rw [if_neg h1] at h
      by_cases h2 : record.count ≥ maxRequests
      · rw [if_pos h2] at h
        simp at h
        exact h.2.symm
      · rw [if_neg h2] at h
        simp at h

/-- The handler issues RPCs only when the validation prefix passed. -/
theorem launchHandler_rpcs_validation (cfg : GwConfig) (c : Coord) (r : LaunchReq) :
    ((launchHandler cfg c r).rpcs ≠ [] → (launchHandler cfg c r).validationOk = true) ∧
    ((launchHandler cfg c r).validationOk = false → (launchHandler cfg c r).rpcs = []) := by
  unfold launchHandler
  rcases hv : handlerValidation cfg r with _ | reason
  · rcases hg : guardRun c (jstr r.block_id) with ⟨rpcs, rej⟩
    cases rej with
    | none =>
      cases hlp : c.launchProof with
      | ok jid => by_cases hj : jid = "" <;> simp [hj]
      | error e => simp
    | some cr =>
      obtain ⟨code, reason⟩ := cr
      simp
  · simp

/-- C3 amended: the `rateLimit` middleware runs first — a rate-limited
request never reaches validation, leaves the record untouched, and
triggers no RPC; validation runs only for admitted requests; and RPCs
are issued only when validation passed. (Validation therefore does not
precede rate limiting: an invalid request still consumes budget.) -/
theorem pipeline_order (maxRequests : Nat) (windowMs : Int) (cfg : GwConfig)
    (c : Coord) (st : Option RLRecord) (now : Int) (r : LaunchReq)
    (out : EndpointOut)
    (hout : out = launchEndpoint maxRequests windowMs cfg c st now r) :
    (out.admitted = false → out.ranValidation = false ∧ out.rpcs = [] ∧
      out.rlAfter = st ∧ out.status = 429) ∧
    (out.ranValidation = true → out.admitted = true) ∧
    (out.rpcs ≠ [] → out.validationOk = true) ∧
    (out.validationOk = false → out.rpcs = []) := by
  subst hout
  unfold launchEndpoint
  rcases hadm : rlAdmit maxRequests windowMs now st with ⟨res, st2⟩
  cases res with
  | rejected m w =>
    have hst : st2 = st := rlAdmit_rejected_state maxRequests windowMs now st st2 m w hadm
    subst hst
    simp
  | allowed =>
    have hrv := launchHandler_rpcs_validation cfg c r
    simp only []
    refine ⟨?_, ?_, ?_, ?_⟩
    · intro h
      simp at h
    · intro _
      trivial
    · intro h
      exact hrv.1 h
    · intro h
      exact hrv.2 h

/-- The default gateway configuration: `MAX_CAPACITY` 1000, no
allow-list, debug off; `path.resolve` irrelevant without an allow-list. -/
def cfg0 : GwConfig := ⟨1000, none, id, false⟩

/-- A launch request with an invalid block id (`!` fails the character
class). -/
def rBad : LaunchReq := ⟨.vStr "bad!id", .vNum 10, .vStr "/data/in.bin", .vNull⟩

/-- A fully valid launch request. -/
def rGood : LaunchReq := ⟨.vStr "b1", .vNum 10, .vStr "/data/in.bin", .vNull⟩

/-- A coordinator with one idle worker and no active jobs. -/
def cIdle : Coord := ⟨.ok (1, 1), .ok [], .ok "job-1"⟩

/-- C3 counterexample: with limit 2, two requests that fail validation
(400) still consume rate-limit budget, so a third, fully valid request
is rejected 429 without validation running — validation does not
complete before the rate-limit check, and invalid requests do consume
budget. -/
theorem pipeline_order_cex :
    (launchEndpoint 2 60000 cfg0 cIdle none 0 rBad).status = 400 ∧
    (launchEndpoint 2 60000 cfg0 cIdle none 0 rBad).validationOk = false ∧
    (launchEndpoint 2 60000 cfg0 cIdle none 0 rBad).rlAfter = some ⟨1, 60000⟩ ∧
    (launchEndpoint 2 60000 cfg0 cIdle
      (launchEndpoint 2 60000 cfg0 cIdle none 0 rBad).rlAfter 1 rBad).rlAfter =
        some ⟨2, 60000⟩ ∧
    (launchEndpoint 2 60000 cfg0 cIdle
      (launchEndpoint 2 60000 cfg0 cIdle
        (launchEndpoint 2 60000 cfg0 cIdle none 0 rBad).rlAfter 1 rBad).rlAfter
      2 rGood).status = 429 ∧
    (launchEndpoint 2 60000 cfg0 cIdle
      (launchEndpoint 2 60000 cfg0 cIdle
        (launchEndpoint 2 60000 cfg0 cIdle none 0 rBad).rlAfter 1 rBad).rlAfter
      2 rGood).ranValidation = false := by
  refine ⟨by decide, by decide, by decide, by decide, by decide, by decide⟩

/-- C3 amended witness: a saturated record rejects the request before
validation, leaving the record untouched. -/
theorem pipeline_order_witness :
    (launchEndpoint 2 60000 cfg0 cIdle (some ⟨2, 60000⟩) 10 rGood).ranValidation = false ∧
    (launchEndpoint 2 60000 cfg0 cIdle (some ⟨2, 60000⟩) 10 rGood).rlAfter =
      some ⟨2, 60000⟩ :=
  ⟨((pipeline_order 2 60000 cfg0 cIdle (some ⟨2, 60000⟩) 10 rGood
      (launchEndpoint 2 60000 cfg0 cIdle (some ⟨2, 60000⟩) 10 rGood) rfl).1
      (by decide)).1,
   ((pipeline_order 2 60000 cfg0 cIdle (some ⟨2, 60000⟩) 10 rGood
      (launchEndpoint 2 60000 cfg0 cIdle (some ⟨2, 60000⟩) 10 rGood) rfl).1
      (by decide)).2.2.1⟩

/-- A coordinator whose `SystemStatus` query throws. -/
def cErr : Coord := ⟨.error (), .ok [], .ok "job-1"⟩

/-- C10: when a pre-launch coordinator query throws — `SystemStatus`
itself, or `JobsList` after workers were reported present and idle —
the error is swallowed, no Conflict/Unavailable rejection is applied,
and the handler proceeds to issue the `LaunchProof` RPC. -/
theorem guard_fail_open (cfg : GwConfig) (c : Coord) (r : LaunchReq)
    (hv : handlerValidation cfg r = none)
    (hthrow : c.systemStatus = .error () ∨
      (∃ t i, c.systemStatus = .ok (t, i) ∧ t ≠ 0 ∧ i ≠ 0 ∧ c.jobsList = .error ())) :
    (guardRun c (jstr r.block_id)).2 = none ∧
    RpcName.launchProof ∈ (launchHandler cfg c r).rpcs := by
  have hg2 : (guardRun c (jstr r.block_id)).2 = none := by
    rcases hthrow with h | ⟨t, i, hss, ht, hi, hjl⟩
    · simp [guardRun, h]
    · simp [guardRun, hss, ht, hi, hjl]
  refine ⟨hg2, ?_⟩
  unfold launchHandler
  rw [hv]
  rcases hg : guardRun c (jstr r.block_id) with ⟨rpcs, rej⟩
  rw [hg] at hg2
  simp only [] at hg2
  subst hg2
  cases c.launchProof with
  | ok jid => by_cases hj : jid = "" <;> simp [hj]
  | error e => simp

/-- C10 witness: a throwing `SystemStatus` on a valid request still
reaches `LaunchProof` with no rejection. -/
theorem guard_fail_open_witness :
    (guardRun cErr (jstr rGood.block_id)).2 = none ∧
    RpcName.launchProof ∈ (launchHandler cfg0 cErr rGood).rpcs :=
  guard_fail_open cfg0 cErr rGood (by decide) (Or.inl rfl)

end Gateway
